import Mathlib

/-!
Shallow embedding of `jobclock` (src/main.rs): a single-file CLI work-session
tracker.  Timestamps (`chrono::DateTime<chrono::Local>`) are modelled as `Int`
instants with the chronological order; each process-level call takes the
current wall-clock instant `now : Int` explicitly.  Printing is modelled by
returning the produced lines; the timestamp formatter
(`format("%d-%m-%Y %H:%M:%S")`) is an abstract parameter `fmt : Int → String`.
-/

namespace Jobclock

/-- `struct Task { name, created_at }` from src/main.rs. -/
structure Task where
  name : String
  created_at : Int
deriving DecidableEq, Repr

/-- `struct Commit { date, title }` from src/main.rs. -/
structure Commit where
  date : Int
  title : String
deriving DecidableEq, Repr

/-- `struct Session { tasks, start_time, working }` from src/main.rs. -/
structure Session where
  tasks : List Task
  start_time : Int
  working : Bool
deriving DecidableEq, Repr

/-- `Session::new()`: empty tasks, `start_time = now`, not working. -/
def Session.new (now : Int) : Session :=
  { tasks := [], start_time := now, working := false }

/-- `Session::get_tasks_clone_sorted`: clone of `tasks` sorted by `created_at`
(Rust `sort_by` is stable; `mergeSort` with `≤` matches it). -/
def Session.get_tasks_clone_sorted (s : Session) : List Task :=
  s.tasks.mergeSort (fun a b => decide (a.created_at ≤ b.created_at))

/-- `Session::begin`: if already working, print only; otherwise set
`start_time = now`, clear tasks, set `working = true`. -/
def Session.begin (s : Session) (now : Int) : Session :=
  if s.working then s
  else { tasks := [], start_time := now, working := true }

/-- State effect of `Session::end`: if working, clear `tasks` and set
`working := false` (after printing the report); otherwise nothing. -/
def Session.end' (s : Session) : Session :=
  if s.working then { tasks := [], start_time := s.start_time, working := false }
  else s

/-- `Session::add_task`: `self.tasks.push(task)`. -/
def Session.add_task (s : Session) (task : Task) : Session :=
  { s with tasks := s.tasks ++ [task] }

/-- `Session::task(name)`: rejected when not working or `name` is empty;
otherwise push `Task { name, created_at: now }`. -/
def Session.task (s : Session) (now : Int) (name : String) : Session :=
  if !s.working then s
  else if name.isEmpty then s
  else s.add_task { name := name, created_at := now }

/-- `get_commit_titles_since(start_date)`: keep the commits with
`commit.date > start_date`, in order, as `Task { name: title, created_at: date }`. -/
def get_commit_titles_since (start_date : Int) : List Commit → List Task
  | [] => []
  | c :: cs =>
    if start_date < c.date then
      { name := c.title, created_at := c.date } :: get_commit_titles_since start_date cs
    else
      get_commit_titles_since start_date cs

/-- `Session::extract_from_git`: rejected while idle (no count is reported);
while working, append every commit-derived task newer than `start_time` and
report how many were appended.  The already-fetched commit list stands in for
the `get_commits()` subprocess call. -/
def Session.extract_from_git (s : Session) (commits : List Commit) : Session × Option Nat :=
  if !s.working then (s, none)
  else
    let commit_titles := get_commit_titles_since s.start_time commits
    ({ s with tasks := s.tasks ++ commit_titles }, some commit_titles.length)

/-- The `Total time: {h}h {m}m {s}s` line printed by `end` and `status`:
`total_seconds` decomposed with Rust `i64` division/remainder (truncation
toward zero, which `Int.div`/`Int.mod` match). -/
def totalTimeLine (total_seconds : Int) : String :=
  "Total time: " ++ toString (total_seconds.tdiv 3600) ++ "h "
    ++ toString ((total_seconds.tmod 3600).tdiv 60) ++ "m "
    ++ toString (total_seconds.tmod 60) ++ "s"

/-- The `task_summary` string built in `Session::end`:
the task names in insertion order joined with `". "`. -/
def Session.task_summary (s : Session) : String :=
  String.intercalate ". " (s.tasks.map Task.name)

/-- The summary output of `Session::end`: `"No tasks added"` when the joined
string is empty, otherwise one `println` of `"\nSummary:\n"` followed by the
joined names plus a trailing `"."`. -/
def Session.summaryOutput (s : Session) : String :=
  if s.task_summary.isEmpty then "No tasks added"
  else "\nSummary:\n" ++ s.task_summary ++ "."

/-- The lines printed by `Session::end`.  `fmt` abstracts the chrono timestamp
formatter and `hoursFmt` the `format("{:.2}", seconds as f64 / 3600.0)`
fractional-hours rendering; `now` is the instant of the invocation (the single
clock reading modelling the adjacent `Local::now()` calls). -/
def Session.endLines (s : Session) (fmt : Int → String) (hoursFmt : Int → String)
    (now : Int) : List String :=
  if s.working then
    let total_seconds := now - s.start_time
    "Job session ended" :: "Timeline:"
      :: ("  " ++ fmt now ++ " - Begin job session")
      :: (s.get_tasks_clone_sorted.map
            (fun task => "  " ++ fmt task.created_at ++ " - Task: " ++ task.name)
          ++ ["  " ++ fmt now ++ " - End job session",
              totalTimeLine total_seconds,
              s.summaryOutput,
              "Hours: " ++ hoursFmt total_seconds])
  else ["No job session to end"]

/-- The lines printed by `Session::status` (read-only). -/
def Session.statusLines (s : Session) (fmt : Int → String) (now : Int) : List String :=
  if s.working then
    ("Job session started at " ++ fmt s.start_time) :: "Tasks:"
      :: ((if s.get_tasks_clone_sorted.isEmpty then ["  No tasks added"] else [])
          ++ s.get_tasks_clone_sorted.map
              (fun task => "  " ++ fmt task.created_at ++ " - " ++ task.name)
          ++ [totalTimeLine (now - s.start_time)])
  else ["No job session started"]

/-- Outcome of the `Command::new("git").args(["log"]).output()` call in
`get_commits`: the spawn failed, the process exited non-zero, or it succeeded
with the given stdout text (invalid UTF-8 already collapsed to `""` by
`unwrap_or("")`). -/
inductive ImporterOutcome where
  | launchFailure (msg : String)
  | exitFailure (stderr : String)
  | success (stdout : String)
deriving DecidableEq, Repr

/-- Char-level worker for `strSplit`; the fuel argument (instantiated with the
length of the text, so it never runs out) only makes the recursion
structural. -/
def splitOnAux (s0 : Char) (sr : List Char) : Nat → List Char → List Char → List (List Char)
  | _, [], acc => [acc.reverse]
  | 0, rest, acc => [acc.reverse ++ rest]
  | fuel + 1, c :: rest, acc =>
    if (s0 :: sr).isPrefixOf (c :: rest) then
      acc.reverse :: splitOnAux s0 sr fuel (rest.drop sr.length) []
    else
      splitOnAux s0 sr fuel rest (c :: acc)

/-- Executable model of Rust `str::split` with a string pattern (also used for
the `char` pattern `'\n'`): scan left to right, emit the piece accumulated so
far at each non-overlapping occurrence of the separator; an empty text or a
trailing separator still yields an (empty) piece. -/
def strSplit (sep : String) (s : String) : List String :=
  match sep.data with
  | [] => [s]
  | s0 :: sr => (splitOnAux s0 sr s.data.length s.data []).map (fun cs => String.mk cs)

/-- The parsing loop of `get_commits` over the `"\n\n"`-separated chunks of
`git log` stdout.  `parseDate` abstracts
`chrono::DateTime::parse_from_str(_, "%b %d %H:%M:%S %Y %z")`, with `none` for
a parse failure.  A `none` result models a panic of the Rust code: `header[2]`
out of bounds when the header chunk has fewer than three lines,
`parts.next().unwrap()` when a header chunk has no following title chunk, and
`.unwrap()` on a failed date parse. -/
def parseChunks (parseDate : String → Option Int) : List String → Option (List Commit)
  | [] => some []
  | header :: rest =>
    match (strSplit "\n" header).get? 2 with
    | none => none
    | some dateLine =>
      match rest with
      | [] => none
      | title :: rest =>
        let date := (strSplit " " (dateLine.replace "Date: " "").trim).drop 1
        let date := String.intercalate " " date
        match parseDate date with
        | none => none
        | some d =>
          match parseChunks parseDate rest with
          | none => none
          | some commits => some ({ date := d, title := title.trim } :: commits)

/-- `get_commits()`: launch failure and non-zero exit print a diagnostic and
return the empty list; on success the stdout text is parsed, where `none`
models a panic while parsing (see `parseChunks`). -/
def get_commits (parseDate : String → Option Int) :
    ImporterOutcome → Option (List Commit)
  | .launchFailure _ => some []
  | .exitFailure _ => some []
  | .success stdout => parseChunks parseDate (strSplit "\n\n" stdout)

/-- The serialized form `serde_json` produces for the session file. -/
inductive Json where
  | str (s : String)
  | num (n : Int)
  | bool (b : Bool)
  | arr (elems : List Json)
  | obj (fields : List (String × Json))
deriving Repr

/-- First field of the given name in a JSON object, as `serde` key lookup. -/
def jsonField (key : String) : List (String × Json) → Option Json
  | [] => none
  | (k, v) :: fields => if k = key then some v else jsonField key fields

/-- Serialization of one `Task` (derived `serde::Serialize`, field order of the
struct; the `chrono` timestamp round-trips exactly and is modelled as the
instant itself). -/
def encodeTask (t : Task) : Json :=
  .obj [("name", .str t.name), ("created_at", .num t.created_at)]

/-- Deserialization of one `Task` (derived `serde::Deserialize`). -/
def decodeTask (j : Json) : Option Task :=
  match j with
  | .obj fields =>
    match jsonField "name" fields, jsonField "created_at" fields with
    | some (.str name), some (.num created_at) =>
      some { name := name, created_at := created_at }
    | _, _ => none
  | _ => none

/-- Deserialization of the `tasks` array, element by element; any element that
fails to decode fails the whole record, as in `serde`. -/
def decodeTasks : List Json → Option (List Task)
  | [] => some []
  | j :: js =>
    match decodeTask j, decodeTasks js with
    | some t, some ts => some (t :: ts)
    | _, _ => none

/-- `Session::save`: the serialized record written to the session file
(`serde_json::to_string` on the derived `Serialize`). -/
def Session.save (s : Session) : Json :=
  .obj [("tasks", .arr (s.tasks.map encodeTask)),
        ("start_time", .num s.start_time),
        ("working", .bool s.working)]

/-- `Session::load`: deserialization of the session file
(`serde_json::from_str`); `none` models the fatal `.unwrap()` on a record that
does not decode. -/
def Session.load (j : Json) : Option Session :=
  match j with
  | .obj fields =>
    match jsonField "tasks" fields, jsonField "start_time" fields,
        jsonField "working" fields with
    | some (.arr tasks), some (.num start_time), some (.bool working) =>
      match decodeTasks tasks with
      | some tasks => some { tasks := tasks, start_time := start_time, working := working }
      | none => none
    | _, _, _ => none
  | _ => none

/-- The subcommand `main` resolves from `argv`: one constructor per match arm
of the `match subcommand.as_str()` plus the missing-subcommand early return. -/
inductive Cmd where
  | begin
  | end'
  | task (args : String)
  | help
  | version
  | status
  | git
  | missing
  | unknown (subcommand : String)
deriving DecidableEq, Repr

/-- Subcommand resolution in `main`: `args.nth(1)` defaulting to `""` (empty →
usage and return), remaining arguments joined with spaces for `task`, unknown
strings falling to the default arm. -/
def parseCmd (args : List String) : Cmd :=
  let subcommand := (args.get? 1).getD ""
  if subcommand.isEmpty then .missing
  else
    let rest := String.intercalate " " (args.drop 2)
    match subcommand with
    | "begin" => .begin
    | "end" => .end'
    | "task" => .task rest
    | "help" => .help
    | "version" => .version
    | "status" => .status
    | "git" => .git
    | _ => .unknown subcommand

/-- The subcommands after which `main` returns before reaching
`session.save()` at the bottom: `help`, `version`, `status`, the
missing-subcommand branch and the invalid-subcommand default arm. -/
def Cmd.informational : Cmd → Bool
  | .help | .version | .status | .missing | .unknown _ => true
  | _ => false

/-- The store content (`None` = no session file) after one run of `main`:
load the file if it exists, otherwise save a fresh `Session::new()` at once;
then dispatch the subcommand, and save afterwards unless the arm returned
early.  `commits` is the list the `git` arm's importer call yields. -/
def main_run (now : Int) (cmd : Cmd) (commits : List Commit)
    (store : Option Session) : Option Session :=
  let session := store.getD (Session.new now)
  let store := match store with
    | some s => some s
    | none => some session
  match cmd with
  | .begin => some (session.begin now)
  | .end' => some session.end'
  | .task args => some (session.task now args)
  | .help => store
  | .version => store
  | .status => store
  | .git => some (session.extract_from_git commits).1
  | .missing => store
  | .unknown _ => store

/-- One mutating `Session` operation, for reachability statements: the clock
reading and, for the import, the importer's commit list are part of the
operation. -/
inductive Op where
  | begin (now : Int)
  | end'
  | task (now : Int) (name : String)
  | importGit (commits : List Commit)
deriving Repr

/-- Apply one operation to a session. -/
def Session.applyOp (s : Session) : Op → Session
  | .begin now => s.begin now
  | .end' => s.end'
  | .task now name => s.task now name
  | .importGit commits => (s.extract_from_git commits).1

/-- Run a sequence of operations from a session. -/
def Session.run (s : Session) (ops : List Op) : Session :=
  ops.foldl Session.applyOp s

/-! Helper lemmas shared by several developments. -/

/-- `task` never changes the `working` flag. -/
theorem Session.task_working (s : Session) (now : Int) (name : String) :
    (s.task now name).working = s.working := by
  simp only [Session.task, Session.add_task]
  split
  · rfl
  · split <;> rfl

/-- `task` on an idle session is the identity. -/
theorem Session.task_of_not_working (s : Session) (now : Int) (name : String)
    (h : s.working = false) : s.task now name = s := by
  simp [Session.task, h]

/-- `begin` always leaves the session working. -/
theorem Session.begin_working (s : Session) (now : Int) :
    (s.begin now).working = true := by
  simp only [Session.begin]
  split
  · assumption
  · rfl

/-- A fold of `task` calls keeps a working session working. -/
theorem tasks_foldl_working (calls : List (Int × String)) (s : Session)
    (h : s.working = true) :
    (calls.foldl (fun acc c => acc.task c.1 c.2) s).working = true := by
  induction calls generalizing s with
  | nil => exact h
  | cons c cs ih =>
    exact ih (s.task c.1 c.2) ((s.task_working c.1 c.2).trans h)

/-! ## C9 -/

/-- C9: a second `begin` on an already-working session changes no field of the
session. -/
theorem begin_idempotent_spec (s : Session) (now : Int) (h : s.working = true) :
    s.begin now = s := by
  simp [Session.begin, h]

/-- Witness for C9 at a concrete working session. -/
theorem begin_idempotent_spec_witness :
    (Session.mk [⟨"a", 1⟩] 0 true).begin 5 = Session.mk [⟨"a", 1⟩] 0 true :=
  begin_idempotent_spec (Session.mk [⟨"a", 1⟩] 0 true) 5 rfl

/-! ## C5 -/

/-- C5: `task name` appends exactly `Task { name, created_at := now }` when the
session is working and `name` is non-empty, and otherwise (idle, or empty name)
leaves the session completely unchanged. -/
theorem task_behavior_spec (s : Session) (now : Int) (name : String) :
    (s.working = true → name ≠ "" →
      s.task now name =
        { s with tasks := s.tasks ++ [{ name := name, created_at := now }] }) ∧
    (s.working = false ∨ name = "" → s.task now name = s) := by
  constructor
  · intro hw hn
    simp [Session.task, Session.add_task, hw, String.isEmpty_iff, hn]
  · rintro (hw | rfl)
    · simp [Session.task, hw]
    · have hempty : ("" : String).isEmpty = true := rfl
      simp [Session.task, hempty]

/-- Witness for C5: a concrete append, a concrete idle rejection and a
concrete empty-name rejection. -/
theorem task_behavior_spec_witness :
    (Session.mk [] 0 true).task 3 "a" =
      { Session.mk [] 0 true with tasks := [] ++ [{ name := "a", created_at := 3 }] } ∧
    (Session.mk [] 0 false).task 3 "a" = Session.mk [] 0 false ∧
    (Session.mk [] 0 true).task 3 "" = Session.mk [] 0 true :=
  ⟨(task_behavior_spec (Session.mk [] 0 true) 3 "a").1 rfl (by decide),
   (task_behavior_spec (Session.mk [] 0 false) 3 "a").2 (Or.inl rfl),
   (task_behavior_spec (Session.mk [] 0 true) 3 "").2 (Or.inr rfl)⟩

/-! ## C4 -/

/-- C4: after `begin`, any number of `task` calls and `end`, the session is not
working and its task list is empty; and `end` on an idle session changes no
field. -/
theorem begin_tasks_end_spec :
    (∀ (s : Session) (nb : Int) (calls : List (Int × String)),
      ((calls.foldl (fun acc c => acc.task c.1 c.2) (s.begin nb)).end').working = false ∧
      ((calls.foldl (fun acc c => acc.task c.1 c.2) (s.begin nb)).end').tasks = []) ∧
    (∀ s : Session, s.working = false → s.end' = s) := by
  constructor
  · intro s nb calls
    have hw := tasks_foldl_working calls (s.begin nb) (s.begin_working nb)
    constructor <;> simp [Session.end', hw]
  · intro s h
    simp [Session.end', h]

/-- Witness for C4: a concrete begin-task-end run and a concrete idle `end`. -/
theorem begin_tasks_end_spec_witness :
    (((Session.new 0).begin 1).task 2 "a").end'.working = false ∧
    (((Session.new 0).begin 1).task 2 "a").end'.tasks = [] ∧
    (Session.new 7).end' = Session.new 7 :=
  ⟨(begin_tasks_end_spec.1 (Session.new 0) 1 [(2, "a")]).1,
   (begin_tasks_end_spec.1 (Session.new 0) 1 [(2, "a")]).2,
   begin_tasks_end_spec.2 (Session.new 7) rfl⟩

/-! ## C6 -/

/-- C6: `extract_from_git` while idle is rejected with no mutation and no
count; while working it appends exactly the commit-derived tasks newer than
`start_time` in importer order, reports their number, and a second call on the
resulting session re-appends the same tasks (no deduplication). -/
theorem extract_from_git_spec (s : Session) (commits : List Commit) :
    (s.working = false → s.extract_from_git commits = (s, none)) ∧
    (s.working = true →
      (s.extract_from_git commits).1 =
        { s with tasks := s.tasks ++ get_commit_titles_since s.start_time commits } ∧
      (s.extract_from_git commits).2 =
        some (get_commit_titles_since s.start_time commits).length ∧
      (((s.extract_from_git commits).1.extract_from_git commits).1).tasks =
        (s.tasks ++ get_commit_titles_since s.start_time commits)
          ++ get_commit_titles_since s.start_time commits) := by
  constructor
  · intro h
    simp [Session.extract_from_git, h]
  · intro h
    refine ⟨?_, ?_, ?_⟩ <;> simp [Session.extract_from_git, h]

/-- Witness for C6: concrete idle rejection, and a concrete working session
and commit list (one commit newer than `start_time`, one older). -/
theorem extract_from_git_spec_witness :
    (Session.mk [] 0 false).extract_from_git [⟨5, "new"⟩, ⟨-3, "old"⟩] =
      (Session.mk [] 0 false, none) ∧
    ((Session.mk [] 0 true).extract_from_git [⟨5, "new"⟩, ⟨-3, "old"⟩]).1 =
      { Session.mk [] 0 true with
        tasks := [] ++ get_commit_titles_since 0 [⟨5, "new"⟩, ⟨-3, "old"⟩] } ∧
    ((Session.mk [] 0 true).extract_from_git [⟨5, "new"⟩, ⟨-3, "old"⟩]).2 =
      some (get_commit_titles_since 0 [⟨5, "new"⟩, ⟨-3, "old"⟩]).length :=
  ⟨(extract_from_git_spec (Session.mk [] 0 false) [⟨5, "new"⟩, ⟨-3, "old"⟩]).1 rfl,
   ((extract_from_git_spec (Session.mk [] 0 true) [⟨5, "new"⟩, ⟨-3, "old"⟩]).2 rfl).1,
   ((extract_from_git_spec (Session.mk [] 0 true) [⟨5, "new"⟩, ⟨-3, "old"⟩]).2 rfl).2.1⟩

/-! ## C10 -/

/-- `extract_from_git` never changes the `working` flag of the session it
returns. -/
theorem Session.extract_working (s : Session) (commits : List Commit) :
    ((s.extract_from_git commits).1).working = s.working := by
  simp only [Session.extract_from_git]
  split
  · rfl
  · rfl

/-- `extract_from_git` on an idle session returns it unchanged. -/
theorem Session.extract_of_not_working (s : Session) (commits : List Commit)
    (h : s.working = false) : (s.extract_from_git commits).1 = s := by
  simp [Session.extract_from_git, h]

/-- Each operation preserves the invariant "idle implies no tasks". -/
theorem applyOp_inv (s : Session) (op : Op)
    (h : s.working = false → s.tasks = []) :
    (s.applyOp op).working = false → (s.applyOp op).tasks = [] := by
  cases op with
  | begin now =>
    simp only [Session.applyOp, Session.begin]
    split
    · exact h
    · intro hc
      simp at hc
  | end' =>
    simp only [Session.applyOp, Session.end']
    split
    · intro _
      rfl
    · exact h
  | task now name =>
    simp only [Session.applyOp]
    intro hf
    rw [Session.task_working] at hf
    rw [Session.task_of_not_working s now name hf]
    exact h hf
  | importGit commits =>
    simp only [Session.applyOp]
    intro hf
    rw [Session.extract_working] at hf
    rw [Session.extract_of_not_working s commits hf]
    exact h hf

/-- C10: in every state reachable from a fresh `Session::new()` by `begin`,
`end`, `task` and git-import operations, a session that is not working has an
empty task list. -/
theorem idle_no_tasks_invariant (now : Int) (ops : List Op)
    (h : ((Session.new now).run ops).working = false) :
    ((Session.new now).run ops).tasks = [] := by
  have general : ∀ (ops : List Op) (s : Session),
      (s.working = false → s.tasks = []) →
      (s.run ops).working = false → (s.run ops).tasks = [] := by
    intro ops
    induction ops with
    | nil => exact fun s hs => hs
    | cons op ops ih => exact fun s hs => ih (s.applyOp op) (applyOp_inv s op hs)
  exact general ops (Session.new now) (fun _ => rfl) h

/-- Witness for C10 on a concrete operation sequence ending idle. -/
theorem idle_no_tasks_invariant_witness :
    ((Session.new 0).run [Op.begin 1, Op.task 2 "a", Op.end']).tasks = [] :=
  idle_no_tasks_invariant 0 [Op.begin 1, Op.task 2 "a", Op.end'] (by rfl)

/-! ## C7 -/

/-- Decoding inverts encoding on a single task. -/
theorem decodeTask_encodeTask (t : Task) : decodeTask (encodeTask t) = some t := rfl

/-- Decoding inverts encoding on a task list. -/
theorem decodeTasks_map_encodeTask (tasks : List Task) :
    decodeTasks (tasks.map encodeTask) = some tasks := by
  induction tasks with
  | nil => rfl
  | cons t ts ih => simp [decodeTasks, decodeTask_encodeTask, ih]

/-- C7: `load` after `save` restores the session exactly: same task names and
timestamps, same `start_time`, same `working`. -/
theorem save_load_roundtrip (s : Session) : Session.load s.save = some s := by
  simp [Session.save, Session.load, jsonField, decodeTasks_map_encodeTask]

/-! ## C1 -/

/-- C1 counterexample: with no pre-existing store, even the purely
informational `status` invocation leaves a freshly saved default session on
disk, so the persisted content is not unchanged. -/
theorem status_fresh_store_cex :
    main_run 0 Cmd.status [] none = some (Session.new 0) ∧
    (some (Session.new 0) : Option Session) ≠ none := by
  constructor
  · rfl
  · simp

/-- C1 (amended): for informational (`status`, `help`, `version`) and
unknown or missing subcommands, the persisted content after the invocation is
the pre-existing record when one exists, and a freshly saved default session
when none existed beforehand. -/
theorem informational_frame_spec (now : Int) (cmd : Cmd) (commits : List Commit)
    (store : Option Session) (h : cmd.informational = true) :
    main_run now cmd commits store = some (store.getD (Session.new now)) := by
  cases cmd <;> first
    | (cases store <;> rfl)
    | simp [Cmd.informational] at h

/-- Witness for C1 at a concrete informational command and stores. -/
theorem informational_frame_spec_witness :
    main_run 3 Cmd.help [] (some (Session.mk [] 1 true)) =
      some ((some (Session.mk [] 1 true)).getD (Session.new 3)) ∧
    main_run 3 Cmd.version [] none = some ((none : Option Session).getD (Session.new 3)) :=
  ⟨informational_frame_spec 3 Cmd.help [] (some (Session.mk [] 1 true)) rfl,
   informational_frame_spec 3 Cmd.version [] none rfl⟩

/-! ## C3 -/

/-- C3 counterexample: on an active session with `start_time = 5` and current
instant `10`, the first line printed by `status` shows the stored start time,
not the current timestamp. -/
theorem status_start_line_cex :
    ((Session.mk [] 5 true).statusLines (fun i => toString i) 10).head? =
      some ("Job session started at " ++ toString (5 : Int)) ∧
    ("Job session started at " ++ toString (5 : Int) : String) ≠
      "Job session started at " ++ toString (10 : Int) := by
  constructor
  · rfl
  · decide

/-- C3 (amended): in the report printed by `end` the session-begin timeline
line uses the current timestamp rather than the stored `start_time` (the
documented quirk), while `status` prints its session-started line from the
stored `start_time`. -/
theorem report_begin_line_spec (fmt hoursFmt : Int → String) (now : Int)
    (s : Session) (h : s.working = true) :
    (s.endLines fmt hoursFmt now).get? 2 =
      some ("  " ++ fmt now ++ " - Begin job session") ∧
    (s.statusLines fmt now).head? =
      some ("Job session started at " ++ fmt s.start_time) := by
  constructor <;> simp [Session.endLines, Session.statusLines, h]

/-- Witness for C3 at a concrete active session with `start_time ≠ now`. -/
theorem report_begin_line_spec_witness :
    ((Session.mk [] 5 true).endLines (fun i => toString i) (fun i => toString i) 10).get? 2 =
      some ("  " ++ toString (10 : Int) ++ " - Begin job session") ∧
    ((Session.mk [] 5 true).statusLines (fun i => toString i) 10).head? =
      some ("Job session started at " ++ toString (5 : Int)) :=
  report_begin_line_spec (fun i => toString i) (fun i => toString i) 10
    (Session.mk [] 5 true) rfl

/-! ## C8 -/

/-- C8 counterexample: an active session holding exactly one task whose name
is empty (reachable through the git import of an empty commit title) has a
non-empty task list, yet `end` prints `"No tasks added"` instead of the
claimed concatenation `"."`. -/
theorem summary_empty_name_cex :
    (Session.mk [{ name := "", created_at := 3 }] 0 true).summaryOutput = "No tasks added" ∧
    (Session.mk [{ name := "", created_at := 3 }] 0 true).tasks ≠ [] ∧
    ("No tasks added" : String) ≠
      String.intercalate ". "
        ((Session.mk [{ name := "", created_at := 3 }] 0 true).tasks.map Task.name) ++ "." := by
  refine ⟨rfl, by simp, by decide⟩

/-- C8 (amended): `end` branches on emptiness of the joined string rather than
of the task list: when the `". "`-joined names string is non-empty the summary
is that concatenation, in original insertion order, with a trailing `"."`;
when the joined string is empty — in particular whenever the task list is
empty — it prints `"No tasks added"`. -/
theorem summary_spec (s : Session) :
    (s.tasks = [] → s.summaryOutput = "No tasks added") ∧
    (s.task_summary.isEmpty = false →
      s.summaryOutput = "\nSummary:\n" ++ s.task_summary ++ ".") := by
  obtain ⟨tasks, st, w⟩ := s
  constructor
  · intro h
    subst h
    rfl
  · intro h
    simp [Session.summaryOutput, h]

/-- Witness for C8: the empty task list, and the two-task scenario from the
specification in insertion order. -/
theorem summary_spec_witness :
    (Session.mk [] 0 true).summaryOutput = "No tasks added" ∧
    (Session.mk [⟨"Write report", 1⟩, ⟨"Review PR", 2⟩] 0 true).summaryOutput =
      "\nSummary:\n"
        ++ (Session.mk [⟨"Write report", 1⟩, ⟨"Review PR", 2⟩] 0 true).task_summary
        ++ "." :=
  ⟨(summary_spec (Session.mk [] 0 true)).1 rfl,
   (summary_spec (Session.mk [⟨"Write report", 1⟩, ⟨"Review PR", 2⟩] 0 true)).2 (by decide)⟩

/-! ## C2 -/

/-- C2 counterexample: on the importer output `"x\n\ny"` — one malformed
record whose header chunk has no date line — the parsing in `get_commits`
panics (`header[2]` out of bounds, modelled by `none`) instead of skipping the
record, whatever the date parser does. -/
theorem import_malformed_aborts_cex :
    get_commits (fun _ => some 0) (.success "x\n\ny") = none := rfl

/-- C2 (amended): an importer launch failure or non-zero exit degrades to an
empty commit list with a diagnostic and never aborts; but malformed commit
records in a successful importer output are not tolerated — parsing can panic
(see the counterexample). -/
theorem importer_failure_empty_spec (parseDate : String → Option Int)
    (msg stderr : String) :
    get_commits parseDate (.launchFailure msg) = some [] ∧
    get_commits parseDate (.exitFailure stderr) = some [] :=
  ⟨rfl, rfl⟩

end Jobclock
